import Mathlib

/-!
Shallow embedding of the student CRUD service in `app_2/main.py`.

The service keeps a single SQLite table `students` with columns
`id` (INTEGER PRIMARY KEY), `name`, `email` (strings, NOT NULL),
`age` (INTEGER NOT NULL) and `course` (string, NOT NULL), and exposes
five operations over it: `create_student_func`, `get_all_students_func`,
`get_student_func`, `update_student_func` and `delete_student_func`.

We model the table as a list of rows in insertion (rowid) order; each
operation is a function from the current table to its result paired with
the table after the call, mirroring the session-per-request discipline of
the Python code.
-/

set_option autoImplicit false

namespace App2

/-- Pydantic model `Student`: the inbound (write) shape. All four fields
are required with primitive types `str`/`int`; pydantic places no further
constraint on them (in particular any string, empty included, is accepted). -/
structure Student where
  name : String
  email : String
  age : Int
  course : String
deriving Repr, DecidableEq

/-- Pydantic model `StudentResponse`: the outbound (read) shape, i.e. the
write shape plus the system-assigned `id`. It is produced from table rows
via `model_validate` (a plain field copy). -/
structure StudentResponse where
  id : Int
  name : String
  email : String
  age : Int
  course : String
deriving Repr, DecidableEq

/-- `HTTPException(status_code=..., detail=...)` as raised by the CRUD
functions. -/
structure HTTPException where
  status_code : Nat
  detail : String
deriving Repr, DecidableEq

/-- The response of `delete_student_func`: the dict
`{"message": ..., "deleted_student": ...}`. -/
structure DeleteResponse where
  message : String
  deleted_student : StudentResponse
deriving Repr, DecidableEq

/-- The `students` table, in rowid (insertion) order. -/
abbrev Store := List StudentResponse

/-- Pydantic validation of the inbound body against `Student`: every field
is required (`none` models a missing field), and a present field of the
right primitive type is accepted as is — pydantic checks presence and
type only, so e.g. an empty `name` string passes validation. -/
def validateStudent (name email : Option String) (age : Option Int)
    (course : Option String) : Option Student :=
  match name, email, age, course with
  | some n, some e, some a, some c => some ⟨n, e, a, c⟩
  | _, _, _, _ => none

/-- Rowid assignment performed by SQLite on `INSERT`. The column
`id = Column(Integer, primary_key=True)` compiles to
`id INTEGER NOT NULL PRIMARY KEY` with no `AUTOINCREMENT` keyword
(SQLAlchemy emits `AUTOINCREMENT` for SQLite only when
`sqlite_autoincrement=True` is set, which this table does not), so `id`
is an alias of the rowid and SQLite assigns one more than the largest
rowid currently in the table, or `1` for an empty table. Without
`AUTOINCREMENT` the rowid of a deleted row can therefore be handed out
again. -/
def nextRowId (s : Store) : Int :=
  s.foldl (fun m r => max m r.id) 0 + 1

/-- `create_student_func`: builds a row from the validated body, inserts
it (SQLite assigns the id, see `nextRowId`), commits, refreshes and
returns the row as a `StudentResponse`. -/
def create_student_func (student : Student) (s : Store) :
    StudentResponse × Store :=
  let r : StudentResponse :=
    ⟨nextRowId s, student.name, student.email, student.age, student.course⟩
  (r, s ++ [r])

/-- `get_all_students_func`: `db.query(StudentModel).all()` returns every
row of the table (in rowid order), each converted to `StudentResponse`. -/
def get_all_students_func (s : Store) : List StudentResponse × Store :=
  (s, s)

/-- The filter `StudentModel.id == student_id` used by get/update/delete. -/
def idIs (student_id : Int) (r : StudentResponse) : Bool :=
  r.id == student_id

/-- `get_student_func`: `.filter(StudentModel.id == student_id).first()`;
`None` is mapped to `HTTPException(404, "Student not found")`. -/
def get_student_func (student_id : Int) (s : Store) :
    Except HTTPException StudentResponse × Store :=
  match s.find? (idIs student_id) with
  | none => (Except.error ⟨404, "Student not found"⟩, s)
  | some r => (Except.ok r, s)

/-- The `setattr` loop of `update_student_func`: overwrite each field of
the body's `model_dump()` (`name`, `email`, `age`, `course`; the id is not
part of the write shape) on the fetched row. -/
def setStudentFields (student : Student) (r : StudentResponse) :
    StudentResponse :=
  { r with name := student.name, email := student.email,
           age := student.age, course := student.course }

/-- Replace the first row satisfying `p` by `f` of it, leaving every other
row in place: the effect on the table of mutating the object returned by
`.first()` and committing. -/
def updateFirst (p : StudentResponse → Bool)
    (f : StudentResponse → StudentResponse) : Store → Store
  | [] => []
  | r :: rs => if p r then f r :: rs else r :: updateFirst p f rs

/-- `update_student_func`: fetch the row by id (404 when absent), set all
four non-id fields from the body, commit, and return the updated row. -/
def update_student_func (student_id : Int) (student : Student) (s : Store) :
    Except HTTPException StudentResponse × Store :=
  match s.find? (idIs student_id) with
  | none => (Except.error ⟨404, "Student not found"⟩, s)
  | some r =>
      (Except.ok (setStudentFields student r),
       updateFirst (idIs student_id) (setStudentFields student) s)

/-- `delete_student_func`: fetch the row by id (404 when absent), copy it
to a `StudentResponse` before deleting, delete the row, commit, and return
the confirmation message with the copied row. -/
def delete_student_func (student_id : Int) (s : Store) :
    Except HTTPException DeleteResponse × Store :=
  match s.find? (idIs student_id) with
  | none => (Except.error ⟨404, "Student not found"⟩, s)
  | some r =>
      (Except.ok ⟨"Student deleted successfully", r⟩,
       s.eraseP (idIs student_id))

/-- Primary-key uniqueness of the `id` column, guaranteed by SQLite for
every reachable table state. -/
def uniqueIds (s : Store) : Prop :=
  (s.map (fun r => r.id)).Nodup

instance (s : Store) : Decidable (uniqueIds s) := by
  unfold uniqueIds; infer_instance

/-- One client call at the operation layer, for reasoning about traces. -/
inductive Op where
  | create (w : Student)
  | get (i : Int)
  | update (i : Int) (w : Student)
  | delete (i : Int)
  | listAll
deriving Repr, DecidableEq

/-- The table after one operation. -/
def applyOp (s : Store) : Op → Store
  | .create w => (create_student_func w s).2
  | .get i => (get_student_func i s).2
  | .update i w => (update_student_func i w s).2
  | .delete i => (delete_student_func i s).2
  | .listAll => (get_all_students_func s).2

/-- The table after a sequence of operations. -/
def runTrace (s : Store) : List Op → Store
  | [] => s
  | op :: ops => runTrace (applyOp s op) ops

/-- Number of successful creates in a trace (`create` always succeeds). -/
def succCreates : List Op → Nat
  | [] => 0
  | .create _ :: ops => succCreates ops + 1
  | _ :: ops => succCreates ops

/-- Number of successful deletes in a trace run from table `s`. -/
def succDeletes (s : Store) : List Op → Nat
  | [] => 0
  | .delete i :: ops =>
      (if (s.find? (idIs i)).isSome then 1 else 0) +
        succDeletes (applyOp s (.delete i)) ops
  | op :: ops => succDeletes (applyOp s op) ops

/-! Helper lemmas about the embedded operations. -/

lemma init_le_foldl_max (s : Store) (a : Int) :
    a ≤ s.foldl (fun m r => max m r.id) a := by
  induction s generalizing a with
  | nil => simp
  | cons x xs ih => exact le_trans (le_max_left a x.id) (ih (max a x.id))

lemma id_le_foldl_max {s : Store} {r : StudentResponse} (h : r ∈ s) (a : Int) :
    r.id ≤ s.foldl (fun m x => max m x.id) a := by
  induction s generalizing a with
  | nil => cases h
  | cons x xs ih =>
    rcases List.mem_cons.mp h with rfl | hmem
    · exact le_trans (le_max_right a r.id) (init_le_foldl_max xs (max a r.id))
    · exact ih hmem (max a x.id)

lemma id_lt_nextRowId {s : Store} {r : StudentResponse} (h : r ∈ s) :
    r.id < nextRowId s := by
  have := id_le_foldl_max h 0
  unfold nextRowId
  omega

lemma find?_nextRowId_none (s : Store) :
    s.find? (idIs (nextRowId s)) = none := by
  rw [List.find?_eq_none]
  intro x hx
  have hlt := id_lt_nextRowId hx
  simp [idIs]
  omega

lemma update_store_of_none {i : Int} {w : Student} {s : Store}
    (h : s.find? (idIs i) = none) :
    (update_student_func i w s).2 = s := by
  simp [update_student_func, h]

lemma update_store_of_some {i : Int} {w : Student} {s : Store}
    {r : StudentResponse} (h : s.find? (idIs i) = some r) :
    (update_student_func i w s).2 =
      updateFirst (idIs i) (setStudentFields w) s := by
  simp [update_student_func, h]

lemma delete_store_of_none {i : Int} {s : Store}
    (h : s.find? (idIs i) = none) :
    (delete_student_func i s).2 = s := by
  simp [delete_student_func, h]

lemma delete_store_of_some {i : Int} {s : Store}
    {r : StudentResponse} (h : s.find? (idIs i) = some r) :
    (delete_student_func i s).2 = s.eraseP (idIs i) := by
  simp [delete_student_func, h]

lemma setStudentFields_id (w : Student) (r : StudentResponse) :
    (setStudentFields w r).id = r.id := rfl

lemma find?_updateFirst_self {i : Int} {f : StudentResponse → StudentResponse}
    (hf : ∀ x, (f x).id = x.id) {s : Store} {r : StudentResponse}
    (h : s.find? (idIs i) = some r) :
    (updateFirst (idIs i) f s).find? (idIs i) = some (f r) := by
  induction s with
  | nil => simp at h
  | cons x xs ih =>
    by_cases hx : idIs i x = true
    · rw [List.find?_cons_of_pos _ hx] at h
      obtain rfl := Option.some.inj h
      have hfx : idIs i (f x) = true := by
        simpa [idIs, hf x] using hx
      rw [updateFirst, if_pos hx, List.find?_cons_of_pos _ hfx]
    · rw [List.find?_cons_of_neg _ hx] at h
      rw [updateFirst, if_neg hx, List.find?_cons_of_neg _ hx]
      exact ih h

lemma find?_updateFirst_other {i j : Int} (hne : j ≠ i)
    {f : StudentResponse → StudentResponse} (hf : ∀ x, (f x).id = x.id)
    (s : Store) :
    (updateFirst (idIs i) f s).find? (idIs j) = s.find? (idIs j) := by
  induction s with
  | nil => rfl
  | cons x xs ih =>
    by_cases hx : idIs i x = true
    · have hxi : x.id = i := by simpa [idIs] using hx
      have hxj : idIs j x = false := by simp [idIs, hxi, hne.symm]
      have hfxj : idIs j (f x) = false := by simp [idIs, hf x, hxi, hne.symm]
      rw [updateFirst, if_pos hx,
        List.find?_cons_of_neg _ (by simp [hfxj]),
        List.find?_cons_of_neg _ (by simp [hxj])]
    · rw [updateFirst, if_neg hx]
      by_cases hxj : idIs j x = true
      · rw [List.find?_cons_of_pos _ hxj, List.find?_cons_of_pos _ hxj]
      · rw [List.find?_cons_of_neg _ hxj, List.find?_cons_of_neg _ hxj]
        exact ih

lemma find?_eraseP_other {i j : Int} (hne : j ≠ i) (s : Store) :
    (s.eraseP (idIs i)).find? (idIs j) = s.find? (idIs j) := by
  induction s with
  | nil => rfl
  | cons x xs ih =>
    by_cases hx : idIs i x = true
    · have hxi : x.id = i := by simpa [idIs] using hx
      have hxj : idIs j x = false := by simp [idIs, hxi, hne.symm]
      rw [List.eraseP_cons_of_pos hx, List.find?_cons_of_neg _ (by simp [hxj])]
    · rw [List.eraseP_cons_of_neg hx]
      by_cases hxj : idIs j x = true
      · rw [List.find?_cons_of_pos _ hxj, List.find?_cons_of_pos _ hxj]
      · rw [List.find?_cons_of_neg _ hxj, List.find?_cons_of_neg _ hxj]
        exact ih

lemma find?_eraseP_self {i : Int} {s : Store} (hu : uniqueIds s) :
    (s.eraseP (idIs i)).find? (idIs i) = none := by
  induction s with
  | nil => rfl
  | cons x xs ih =>
    rw [uniqueIds, List.map_cons, List.nodup_cons] at hu
    by_cases hx : idIs i x = true
    · have hxi : x.id = i := by simpa [idIs] using hx
      rw [List.eraseP_cons_of_pos hx, List.find?_eq_none]
      intro y hy
      have : y.id ≠ x.id := fun hid => hu.1 (hid ▸ List.mem_map_of_mem _ hy)
      simp [idIs, hxi ▸ this]
    · rw [List.eraseP_cons_of_neg hx, List.find?_cons_of_neg _ hx]
      exact ih hu.2

lemma length_updateFirst (p : StudentResponse → Bool)
    (f : StudentResponse → StudentResponse) (s : Store) :
    (updateFirst p f s).length = s.length := by
  induction s with
  | nil => rfl
  | cons x xs ih =>
    by_cases hx : p x = true
    · rw [updateFirst, if_pos hx, List.length_cons, List.length_cons]
    · rw [updateFirst, if_neg hx]
      simp [ih]

lemma get_store_eq (i : Int) (s : Store) : (get_student_func i s).2 = s := by
  unfold get_student_func
  cases s.find? (idIs i) <;> rfl

lemma map_id_updateFirst {f : StudentResponse → StudentResponse}
    (hf : ∀ x, (f x).id = x.id) (p : StudentResponse → Bool) (s : Store) :
    (updateFirst p f s).map (fun r => r.id) = s.map (fun r => r.id) := by
  induction s with
  | nil => rfl
  | cons x xs ih =>
    by_cases hx : p x = true
    · rw [updateFirst, if_pos hx, List.map_cons, List.map_cons, hf x]
    · rw [updateFirst, if_neg hx, List.map_cons, List.map_cons, ih]

/-- Primary-key uniqueness is preserved by every operation, so `uniqueIds`
holds of every table state the service can reach. -/
lemma uniqueIds_applyOp {s : Store} (hu : uniqueIds s) (op : Op) :
    uniqueIds (applyOp s op) := by
  cases op with
  | create w =>
    show uniqueIds (s ++ [_])
    rw [uniqueIds, List.map_append, List.nodup_append]
    refine ⟨hu, List.nodup_singleton _, ?_⟩
    intro a ha
    obtain ⟨r, hr, rfl⟩ := List.mem_map.mp ha
    have := id_lt_nextRowId hr
    simp only [List.map_cons, List.map_nil, List.mem_singleton]
    omega
  | get i =>
    rw [applyOp, get_store_eq]; exact hu
  | update i w =>
    rw [applyOp]
    cases h : s.find? (idIs i) with
    | none => rw [update_store_of_none h]; exact hu
    | some r =>
      rw [update_store_of_some h, uniqueIds,
        map_id_updateFirst (setStudentFields_id w)]
      exact hu
  | delete i =>
    rw [applyOp]
    cases h : s.find? (idIs i) with
    | none => rw [delete_store_of_none h]; exact hu
    | some r =>
      rw [delete_store_of_some h]
      exact hu.sublist ((List.eraseP_sublist s).map (fun r => r.id))
  | listAll => exact hu

lemma runTrace_length (t : List Op) : ∀ s : Store,
    (runTrace s t).length + succDeletes s t = s.length + succCreates t := by
  induction t with
  | nil => intro s; simp [runTrace, succDeletes, succCreates]
  | cons op ops ih =>
    intro s
    have h := ih (applyOp s op)
    cases op with
    | create w =>
      have hlen : (applyOp s (.create w)).length = s.length + 1 := by
        simp [applyOp, create_student_func]
      simp only [runTrace, succDeletes, succCreates]
      omega
    | get i =>
      have hst : applyOp s (.get i) = s := get_store_eq i s
      simp only [runTrace, succDeletes, succCreates]
      rw [hst] at h ⊢
      omega
    | update i w =>
      have hlen : (applyOp s (.update i w)).length = s.length := by
        rw [applyOp]
        cases hf : s.find? (idIs i) with
        | none => rw [update_store_of_none hf]
        | some r =>
          rw [update_store_of_some hf]
          exact length_updateFirst _ _ s
      simp only [runTrace, succDeletes, succCreates]
      omega
    | delete i =>
      cases hf : s.find? (idIs i) with
      | none =>
        have hst : applyOp s (.delete i) = s := delete_store_of_none hf
        simp only [runTrace, succDeletes, succCreates, hf, Option.isSome_none,
          Bool.false_eq_true, if_false]
        rw [hst] at h ⊢
        omega
      | some r =>
        have hmem : r ∈ s := List.mem_of_find?_eq_some hf
        have hlen : (applyOp s (.delete i)).length + 1 = s.length := by
          rw [applyOp, delete_store_of_some hf,
            List.length_eraseP_of_mem hmem (List.find?_some hf)]
          have := List.length_pos_of_mem hmem
          omega
        simp only [runTrace, succDeletes, succCreates, hf, Option.isSome_some,
          if_true]
        omega
    | listAll =>
      have hst : applyOp s .listAll = s := rfl
      simp only [runTrace, succDeletes, succCreates]
      rw [hst] at h ⊢
      omega

/-! Claim theorems. -/

/-- Claim C1: after `create(W)` returns a record with id `i`, an
immediately following `get(i)` on the resulting store succeeds and returns
exactly the created record, whose name, email, age and course are those of
`W`. -/
theorem create_then_get (w : Student) (s : Store) :
    (get_student_func (create_student_func w s).1.id
        (create_student_func w s).2).1 =
      Except.ok (create_student_func w s).1 ∧
    (create_student_func w s).1.name = w.name ∧
    (create_student_func w s).1.email = w.email ∧
    (create_student_func w s).1.age = w.age ∧
    (create_student_func w s).1.course = w.course := by
  refine ⟨?_, rfl, rfl, rfl, rfl⟩
  have hfind : (create_student_func w s).2.find?
      (idIs (create_student_func w s).1.id) =
      some (create_student_func w s).1 := by
    show (s ++ [_]).find? (idIs (nextRowId s)) = _
    rw [List.find?_append, find?_nextRowId_none s, Option.none_or,
      List.find?_cons_of_pos _ (by simp [idIs])]
    rfl
  simp [get_student_func, hfind]

/-- Claim C2, counterexample: starting from the empty store, the first
create issues id 1; after deleting record 1, the next create issues id 1
again — an id previously issued (to a record that has since been deleted).
SQLite reuses the rowid of a deleted maximal row because the `id` column
carries no `AUTOINCREMENT`. -/
theorem create_reuses_deleted_id :
    (create_student_func ⟨"Ann", "a@x.com", 20, "CS"⟩ []).1.id = 1 ∧
    (create_student_func ⟨"Ann", "a@x.com", 20, "CS"⟩
        (delete_student_func 1
          (create_student_func ⟨"Ann", "a@x.com", 20, "CS"⟩ []).2).2).1.id =
      1 := by
  decide

/-- Claim C2, amended: create returns a record whose id differs from the id
of every record currently in the store (it is strictly greater than all of
them); ids of records already deleted may be reused. -/
theorem create_id_fresh (w : Student) (s : Store) :
    ∀ r ∈ s, r.id ≠ (create_student_func w s).1.id ∧
      r.id < (create_student_func w s).1.id := by
  intro r hr
  have h := id_lt_nextRowId hr
  exact ⟨by show r.id ≠ nextRowId s; omega, h⟩

/-- Witness for `create_id_fresh` on a one-record store. -/
theorem create_id_fresh_witness :
    (⟨1, "Ann", "a@x.com", 20, "CS"⟩ : StudentResponse).id ≠
      (create_student_func ⟨"Bob", "b@x.com", 21, "Math"⟩
        [⟨1, "Ann", "a@x.com", 20, "CS"⟩]).1.id ∧
    (⟨1, "Ann", "a@x.com", 20, "CS"⟩ : StudentResponse).id <
      (create_student_func ⟨"Bob", "b@x.com", 21, "Math"⟩
        [⟨1, "Ann", "a@x.com", 20, "CS"⟩]).1.id :=
  create_id_fresh ⟨"Bob", "b@x.com", 21, "Math"⟩
    [⟨1, "Ann", "a@x.com", 20, "CS"⟩] ⟨1, "Ann", "a@x.com", 20, "CS"⟩
    (List.mem_singleton.mpr rfl)

/-- Claim C3: when id `i` is present (first row matching `i` is `r`),
update succeeds and returns the updated row, and a following `get(i)`
returns a record whose four data fields are exactly those of `W` and whose
id is still `i`. -/
theorem update_then_get (i : Int) (w : Student) (s : Store)
    (r : StudentResponse) (h : s.find? (idIs i) = some r) :
    (update_student_func i w s).1 = Except.ok (setStudentFields w r) ∧
    (get_student_func i (update_student_func i w s).2).1 =
      Except.ok ⟨i, w.name, w.email, w.age, w.course⟩ := by
  have hid : r.id = i := by
    have := List.find?_some h
    simpa [idIs] using this
  refine ⟨by simp [update_student_func, h], ?_⟩
  rw [update_store_of_some h]
  have hfind := find?_updateFirst_self (setStudentFields_id w) h
  have hval : setStudentFields w r =
      (⟨i, w.name, w.email, w.age, w.course⟩ : StudentResponse) := by
    simp [setStudentFields, hid]
  simp [get_student_func, hfind, hval]

/-- Witness for `update_then_get` on a one-record store. -/
theorem update_then_get_witness :
    (update_student_func 1 ⟨"Bob", "b@x.com", 21, "Math"⟩
        [⟨1, "Ann", "a@x.com", 20, "CS"⟩]).1 =
      Except.ok (setStudentFields ⟨"Bob", "b@x.com", 21, "Math"⟩
        ⟨1, "Ann", "a@x.com", 20, "CS"⟩) ∧
    (get_student_func 1 (update_student_func 1 ⟨"Bob", "b@x.com", 21, "Math"⟩
        [⟨1, "Ann", "a@x.com", 20, "CS"⟩]).2).1 =
      Except.ok ⟨1, "Bob", "b@x.com", 21, "Math"⟩ :=
  update_then_get 1 ⟨"Bob", "b@x.com", 21, "Math"⟩
    [⟨1, "Ann", "a@x.com", 20, "CS"⟩] ⟨1, "Ann", "a@x.com", 20, "CS"⟩ rfl

/-- Claim C4: get, update and delete on an id with no record all fail with
the 404 error carrying the fixed detail "Student not found"; in particular,
on any table with unique ids, deleting an id and then deleting it again
makes the second delete fail the same way. -/
theorem notFound_on_absent (i : Int) (w : Student) (s : Store)
    (habs : s.find? (idIs i) = none) :
    (get_student_func i s).1 = Except.error ⟨404, "Student not found"⟩ ∧
    (update_student_func i w s).1 =
      Except.error ⟨404, "Student not found"⟩ ∧
    (delete_student_func i s).1 =
      Except.error ⟨404, "Student not found"⟩ ∧
    (∀ (t : Store) (r : StudentResponse), uniqueIds t →
      t.find? (idIs i) = some r →
      (delete_student_func i (delete_student_func i t).2).1 =
        Except.error ⟨404, "Student not found"⟩) := by
  refine ⟨by simp [get_student_func, habs],
    by simp [update_student_func, habs],
    by simp [delete_student_func, habs], ?_⟩
  intro t r hu hf
  rw [delete_store_of_some hf]
  simp [delete_student_func, find?_eraseP_self hu]

/-- Witness for `notFound_on_absent`: id 2 absent from the empty store, and
a second delete of id 2 on a one-record store. -/
theorem notFound_on_absent_witness :
    (get_student_func 2 ([] : Store)).1 =
      Except.error ⟨404, "Student not found"⟩ ∧
    (delete_student_func 2 (delete_student_func 2
        [(⟨2, "Ann", "a@x.com", 20, "CS"⟩ : StudentResponse)]).2).1 =
      Except.error ⟨404, "Student not found"⟩ :=
  ⟨(notFound_on_absent 2 ⟨"Bob", "b@x.com", 21, "Math"⟩ [] rfl).1,
   (notFound_on_absent 2 ⟨"Bob", "b@x.com", 21, "Math"⟩ [] rfl).2.2.2
     [⟨2, "Ann", "a@x.com", 20, "CS"⟩] ⟨2, "Ann", "a@x.com", 20, "CS"⟩
     (by decide) rfl⟩

/-- Claim C5: delete on a present id (whose first matching row is `r`)
returns the message "Student deleted successfully" together with `r`
exactly as stored before the deletion, and removes that row from the
table; with unique ids the id no longer resolves afterwards. -/
theorem delete_returns_deleted (i : Int) (s : Store) (r : StudentResponse)
    (h : s.find? (idIs i) = some r) :
    (delete_student_func i s).1 =
      Except.ok ⟨"Student deleted successfully", r⟩ ∧
    (delete_student_func i s).2 = s.eraseP (idIs i) ∧
    (uniqueIds s → (delete_student_func i s).2.find? (idIs i) = none) := by
  refine ⟨by simp [delete_student_func, h], delete_store_of_some h, ?_⟩
  intro hu
  rw [delete_store_of_some h]
  exact find?_eraseP_self hu

/-- Witness for `delete_returns_deleted` on a one-record store. -/
theorem delete_returns_deleted_witness :
    (delete_student_func 1
        [(⟨1, "Ann", "a@x.com", 20, "CS"⟩ : StudentResponse)]).1 =
      Except.ok ⟨"Student deleted successfully",
        ⟨1, "Ann", "a@x.com", 20, "CS"⟩⟩ ∧
    (delete_student_func 1
        [(⟨1, "Ann", "a@x.com", 20, "CS"⟩ : StudentResponse)]).2.find?
      (idIs 1) = none :=
  ⟨(delete_returns_deleted 1 [⟨1, "Ann", "a@x.com", 20, "CS"⟩]
      ⟨1, "Ann", "a@x.com", 20, "CS"⟩ rfl).1,
   (delete_returns_deleted 1 [⟨1, "Ann", "a@x.com", 20, "CS"⟩]
      ⟨1, "Ann", "a@x.com", 20, "CS"⟩ rfl).2.2 (by decide)⟩

/-- Claim C6: list_all returns exactly the stored records — the result is
the table itself, the empty sequence on the empty table — and after any
trace of operations run from the empty store, its length equals the number
of successful creates minus the number of successful deletes. -/
theorem list_all_exact :
    (∀ s : Store, get_all_students_func s = (s, s)) ∧
    (get_all_students_func ([] : Store)).1 = [] ∧
    (∀ t : List Op, (runTrace ([] : Store) t).length =
      succCreates t - succDeletes ([] : Store) t) ∧
    (∀ t : List Op, succDeletes ([] : Store) t ≤ succCreates t) := by
  refine ⟨fun s => rfl, rfl, ?_, ?_⟩ <;> intro t <;>
    have h := runTrace_length t ([] : Store) <;>
    simp only [List.length_nil, Nat.zero_add] at h <;> omega

/-- Claim C7, counterexample: the validation layer accepts an empty name —
pydantic's `name: str` requires presence and type only — and create then
persists a record whose name is the empty string, so the claimed non-empty
name invariant fails. -/
theorem empty_name_persisted :
    validateStudent (some "") (some "a@x.com") (some 20) (some "CS") =
      some ⟨"", "a@x.com", 20, "CS"⟩ ∧
    (create_student_func ⟨"", "a@x.com", 20, "CS"⟩ []).2 =
      [⟨1, "", "a@x.com", 20, "CS"⟩] :=
  ⟨rfl, rfl⟩

/-- Claim C7, amended: every persisted record has all four non-id fields
present — validation accepts a body exactly when all four fields are
supplied — but the string fields are not constrained beyond their type, so
the name may be any string, the empty string included. -/
theorem validateStudent_iff_all_fields (n e : Option String) (a : Option Int)
    (c : Option String) :
    (validateStudent n e a c).isSome ↔
      n.isSome ∧ e.isSome ∧ a.isSome ∧ c.isSome := by
  cases n <;> cases e <;> cases a <;> cases c <;> simp [validateStudent]

/-- Claim C8: failing operations leave the table unchanged: a body missing
any of the four fields is rejected by validation (which takes no store at
all, so no mutation is ever attempted), and when get, update or delete
fails with NotFound the table after the call equals the table before. -/
theorem failure_leaves_store (i : Int) (w : Student) (s : Store) :
    validateStudent none (some w.email) (some w.age) (some w.course) =
      none ∧
    validateStudent (some w.name) none (some w.age) (some w.course) =
      none ∧
    validateStudent (some w.name) (some w.email) none (some w.course) =
      none ∧
    validateStudent (some w.name) (some w.email) (some w.age) none = none ∧
    (get_student_func i s).2 = s ∧
    (s.find? (idIs i) = none → (update_student_func i w s).2 = s) ∧
    (s.find? (idIs i) = none → (delete_student_func i s).2 = s) :=
  ⟨rfl, rfl, rfl, rfl, get_store_eq i s,
   fun h => update_store_of_none h, fun h => delete_store_of_none h⟩

/-- Witness for `failure_leaves_store`: failing update and delete on the
empty store leave it empty. -/
theorem failure_leaves_store_witness :
    (update_student_func 1 ⟨"Bob", "b@x.com", 21, "Math"⟩ []).2 =
      ([] : Store) ∧
    (delete_student_func 1 ([] : Store)).2 = ([] : Store) :=
  ⟨(failure_leaves_store 1 ⟨"Bob", "b@x.com", 21, "Math"⟩ []).2.2.2.2.2.1
     rfl,
   (failure_leaves_store 1 ⟨"Bob", "b@x.com", 21, "Math"⟩ []).2.2.2.2.2.2
     rfl⟩

/-- Claim C9: get and list_all are read-only and idempotent: each leaves
the table exactly as it was, and repeating the same call on the resulting
state returns the same answer. -/
theorem get_listAll_idempotent (i : Int) (s : Store) :
    (get_student_func i s).2 = s ∧
    (get_all_students_func s).2 = s ∧
    get_student_func i (get_student_func i s).2 = get_student_func i s ∧
    get_all_students_func (get_all_students_func s).2 =
      get_all_students_func s := by
  refine ⟨get_store_eq i s, rfl, ?_, rfl⟩
  rw [get_store_eq]

/-- Claim C10: update(i, W) and delete(i) affect no other id: for every
j ≠ i, looking up j (its presence and its full record value) gives the
same answer after the operation as before it. -/
theorem update_delete_frame (i j : Int) (w : Student) (s : Store)
    (hne : j ≠ i) :
    (update_student_func i w s).2.find? (idIs j) = s.find? (idIs j) ∧
    (delete_student_func i s).2.find? (idIs j) = s.find? (idIs j) := by
  constructor
  · cases h : s.find? (idIs i) with
    | none => rw [update_store_of_none h]
    | some r =>
      rw [update_store_of_some h]
      exact find?_updateFirst_other hne (setStudentFields_id w) s
  · cases h : s.find? (idIs i) with
    | none => rw [delete_store_of_none h]
    | some r =>
      rw [delete_store_of_some h]
      exact find?_eraseP_other hne s

/-- Witness for `update_delete_frame`: updating and deleting id 1 leaves
the lookup of id 2 unchanged on a two-record store. -/
theorem update_delete_frame_witness :
    (update_student_func 1 ⟨"Bob", "b@x.com", 21, "Math"⟩
        [⟨1, "Ann", "a@x.com", 20, "CS"⟩,
         ⟨2, "Cy", "c@x.com", 22, "EE"⟩]).2.find? (idIs 2) =
      ([⟨1, "Ann", "a@x.com", 20, "CS"⟩,
        ⟨2, "Cy", "c@x.com", 22, "EE"⟩] : Store).find? (idIs 2) ∧
    (delete_student_func 1
        [⟨1, "Ann", "a@x.com", 20, "CS"⟩,
         ⟨2, "Cy", "c@x.com", 22, "EE"⟩]).2.find? (idIs 2) =
      ([⟨1, "Ann", "a@x.com", 20, "CS"⟩,
        ⟨2, "Cy", "c@x.com", 22, "EE"⟩] : Store).find? (idIs 2) :=
  update_delete_frame 1 2 ⟨"Bob", "b@x.com", 21, "Math"⟩
    [⟨1, "Ann", "a@x.com", 20, "CS"⟩, ⟨2, "Cy", "c@x.com", 22, "EE"⟩]
    (by decide)

end App2
